import Mathlib

/-!
Verification of the Functional Linear Modelling core
(`src/pyActigraphy/analysis/flm.py`) against its specification.

The Python class `FLM` is embedded shallowly: its mutable object state becomes
the structure `FLM`, each method becomes a Lean function from a state to a
pair of a new state and an `Except` result (Python exceptions become
`Except.error`), and the external numerical primitives that the spec treats
as black boxes (the ordinary-least-squares solver, the B-spline fit and
evaluation routines, and the 1-D Gaussian kernel smoother) are collected in
the structure `NumPrims` and passed as a parameter.  Machine floats are
modelled by real numbers.
-/

/-- The four basis kinds accepted by the `FLM` constructor.  Only `fourier`
and `spline` are implemented by the source. -/
inductive BasisKind where
  | fourier
  | spline
  | ssa
  | wavelet


/-- Python exceptions that the embedded code can raise.  Each constructor
corresponds to one concrete raise site or runtime failure of `flm.py`:

* `valueErrorFitFirst`: the `ValueError` raised by `evaluate` when `beta`
  is `None`; its message is "The basis function expansion parameters are
  empty.  Please run the `self.fit` method first." — the StateError of the
  specification, telling the caller to fit first.
* `valueErrorStackEmpty`: `np.stack` on an empty list of arrays.
* `valueErrorStackShape`: `np.stack` on arrays of unequal lengths.
* `valueErrorShapeMismatch`: `sm.OLS(y, X)` (or `np.dot(X, beta)`) with
  incompatible shapes, such as `len(y)` different from the number of rows
  of `X`.
* `valueErrorSplineDegree`: `scipy.interpolate.splrep` with a degree `k`
  outside `1 <= k <= 5`.
* `valueErrorSplineTooShort`: `splrep` with fewer data points than `k + 1`
  (its condition "m > k must hold").
* `typeErrorNoneArith`: arithmetic on `None` (for instance building the
  Fourier basis while `max_order` or `nsamples` is `None`).
* `typeErrorArity`: a call that passes more positional arguments than the
  callee accepts ("evaluate() takes from 1 to 2 positional arguments but
  3 were given").
* `typeErrorDotSpline`: `np.dot` applied to a spline representation
  (unreachable from states produced by `fit`).
* `unboundLocalFwhm`: the `UnboundLocalError` raised inside `smooth` when
  no branch assigned the local variable `fwhm`. -/
inductive PyError where
  | valueErrorFitFirst
  | valueErrorStackEmpty
  | valueErrorStackShape
  | valueErrorShapeMismatch
  | valueErrorSplineDegree
  | valueErrorSplineTooShort
  | typeErrorNoneArith
  | typeErrorArity
  | typeErrorDotSpline
  | unboundLocalFwhm


/-- The opaque spline representation returned by `scipy.interpolate.splrep`:
a knot vector, a coefficient vector and a degree.  The source stores
`list(splrep(...))` as the model coefficients. -/
structure SplineRep where
  knots : List ℝ
  coefs : List ℝ
  degree : ℕ


/-- The value of the private attribute `self.__beta`: either the parameter
vector returned by the OLS fit (Fourier branch) or a spline representation
(spline branch). -/
inductive Beta where
  | fourierParams (params : List ℝ)
  | splineRep (rep : SplineRep)

/-- The external numerical primitives used as black boxes by `flm.py`, per
the specification: the OLS parameter estimate, the B-spline fitting and
pointwise evaluation routines, and the 1-D Gaussian kernel smoother of
`spm1d.util.smooth`.  Only their interfaces matter for this development. -/
structure NumPrims where
  olsParams : List ℝ → List (List ℝ) → List ℝ
  splrepRep : List ℝ → List ℝ → ℕ → SplineRep
  splevAt : SplineRep → ℝ → ℝ
  spm1dSmooth : List ℝ → ℝ → List ℝ

/-- An external raw-data record (`BaseRaw`): an identity label
(`display_name`, modelled as an opaque token) together with the
daily-average-series provider `average_daily_activity(binarize, freq)`.
The sampling frequency is an opaque token passed through unchanged. -/
structure Raw where
  display_name : ℕ
  average_daily_activity : Bool → ℕ → List ℝ

/-- The state of an `FLM` object: the private attributes set by
`FLM.__init__` and mutated by `fit`. -/
structure FLM where
  basis : BasisKind
  sampling_freq : ℕ
  nsamples : Option ℕ
  max_order : Option ℕ
  basis_functions : Option (List (List ℝ))
  beta : Option Beta

/-- The constructor `FLM.__init__(basis, sampling_freq, max_order=None)`:
stores the configuration; `nsamples`, `basis_functions` and `beta` start
undefined (`None`).  The membership check on `basis` is subsumed by the
type `BasisKind`. -/
def FLM.init (basis : BasisKind) (sampling_freq : ℕ) (max_order : Option ℕ) : FLM :=
  { basis := basis
    sampling_freq := sampling_freq
    nsamples := none
    max_order := max_order
    basis_functions := none
    beta := none }

/-- The numpy call `np.linspace(0, stop, num, endpoint=False)`: the `num`
points `i * (stop / num)` for `i = 0, ..., num - 1`. -/
noncomputable def linspace0 (stop num : ℕ) : List ℝ :=
  (List.range num).map fun (i : ℕ) => (i : ℝ) * ((stop : ℝ) / (num : ℝ))

/-- The body of the Fourier branch of `FLM.__create_basis_functions`:
with `omega = 2 * pi / T` and `t = np.linspace(0, T, T, endpoint=False)`,
append `cos(0 * t)` and then, for `n = 1, ..., k`, `cos(n * omega * t)`
and `sin(n * omega * t)`. -/
noncomputable def fourierPhi (T k : ℕ) : List (List ℝ) :=
  let omega : ℝ := 2 * Real.pi / (T : ℝ)
  let t := linspace0 T T
  (t.map fun x => Real.cos (0 * x)) ::
    (List.range k).flatMap fun (m : ℕ) =>
      [t.map fun x => Real.cos (((m : ℝ) + 1) * omega * x),
       t.map fun x => Real.sin (((m : ℝ) + 1) * omega * x)]

/-- The private method `FLM.__create_basis_functions(T)`.  For the Fourier
basis, `omega = 2 * pi / T` fails with a `TypeError` when `T` is `None`,
and `np.arange(1, self.max_order + 1)` fails with a `TypeError` when
`max_order` is `None`.  For every other basis kind the method produces the
empty list `phi = []`. -/
noncomputable def createBasisFunctions (basis : BasisKind) (max_order : Option ℕ)
    (T? : Option ℕ) : Except PyError (List (List ℝ)) :=
  match basis with
  | BasisKind.fourier =>
    match T?, max_order with
    | none, _ => Except.error PyError.typeErrorNoneArith
    | some _, none => Except.error PyError.typeErrorNoneArith
    | some T, some k => Except.ok (fourierPhi T k)
  | _ => Except.ok []

/-- The property getter `FLM.basis_functions`: return the cached list, or
build it with `__create_basis_functions(self.nsamples)` and cache it when
it is still undefined. -/
noncomputable def FLM.basisFunctionsGet (s : FLM) :
    FLM × Except PyError (List (List ℝ)) :=
  match s.basis_functions with
  | some bfs => (s, Except.ok bfs)
  | none =>
    match createBasisFunctions s.basis s.max_order s.nsamples with
    | Except.ok phi => ({s with basis_functions := some phi}, Except.ok phi)
    | Except.error e => (s, Except.error e)

/-- The shape check performed by `np.stack(cols, axis=1)`: it raises a
`ValueError` on an empty list and on arrays of unequal lengths; otherwise
the stacked matrix has one column per input array. -/
def npStackCheck (cols : List (List ℝ)) : Except PyError Unit :=
  match cols with
  | [] => Except.error PyError.valueErrorStackEmpty
  | c :: rest =>
    if rest.all fun v => v.length == c.length then Except.ok ()
    else Except.error PyError.valueErrorStackShape

/-- The matrix-vector product `np.dot(X, b)` where `X` is the column-stacked
matrix of `cols`: entry `i` is the sum over columns `j` of
`cols[j][i] * b[j]`; the result has one entry per row of `X`. -/
def matVec (cols : List (List ℝ)) (b : List ℝ) : List ℝ :=
  (List.range (cols.head?.getD []).length).map fun i =>
    ((cols.zip b).map fun p => p.1.getD i 0 * p.2).sum

/-- The call `np.dot(X, b)` with its shape check: the number of columns of
`X` must equal the length of `b`. -/
def npDot (cols : List (List ℝ)) (b : List ℝ) : Except PyError (List ℝ) :=
  if cols.length = b.length then Except.ok (matVec cols b)
  else Except.error PyError.valueErrorShapeMismatch

/-- The call `sm.OLS(y, X).fit().params`: statsmodels rejects an observation
vector whose length differs from the number of rows of the design matrix;
on success the black-box solver returns the parameter vector. -/
def smOLS (P : NumPrims) (y : List ℝ) (cols : List (List ℝ)) :
    Except PyError (List ℝ) :=
  if y.length = (cols.head?.getD []).length then Except.ok (P.olsParams y cols)
  else Except.error PyError.valueErrorShapeMismatch

/-- The call `scipy.interpolate.splrep(t, y, k=k)`: scipy requires the
degree to satisfy `1 <= k <= 5` and the number of data points to satisfy
`m > k`; on success the black-box routine returns the spline
representation. -/
def splrepChecked (P : NumPrims) (t y : List ℝ) (k : ℕ) :
    Except PyError SplineRep :=
  if 1 ≤ k ∧ k ≤ 5 then
    if k < y.length then Except.ok (P.splrepRep t y k)
    else Except.error PyError.valueErrorSplineTooShort
  else Except.error PyError.valueErrorSplineDegree

/-- The Fourier branch of `FLM.fit`: stack the (lazily created) basis
functions into the design matrix, solve ordinary least squares against the
daily average, and store the fitted parameters in `beta`.  Failures leave
`beta` untouched. -/
noncomputable def FLM.fitFourier (P : NumPrims) (s : FLM) (daily : List ℝ) :
    FLM × Except PyError Unit :=
  match s.basisFunctionsGet with
  | (s2, Except.error e) => (s2, Except.error e)
  | (s2, Except.ok bfs) =>
    match npStackCheck bfs with
    | Except.error e => (s2, Except.error e)
    | Except.ok _ =>
      match smOLS P daily bfs with
      | Except.error e => (s2, Except.error e)
      | Except.ok params =>
        ({s2 with beta := some (Beta.fourierParams params)}, Except.ok ())

/-- The spline branch of `FLM.fit`: with `T = self.nsamples`,
`t = np.linspace(0, T, T, endpoint=False)` and degree
`k = 3 if self.max_order is None else self.max_order`, store
`list(splrep(t, daily, k=k))` in `beta`.  Failures leave `beta`
untouched. -/
noncomputable def FLM.fitSpline (P : NumPrims) (s : FLM) (daily : List ℝ) :
    FLM × Except PyError Unit :=
  let T := s.nsamples.getD 0
  let t := linspace0 T T
  let k := s.max_order.getD 3
  match splrepChecked P t daily k with
  | Except.error e => (s, Except.error e)
  | Except.ok rep => ({s with beta := some (Beta.splineRep rep)}, Except.ok ())

/-- The method `FLM.fit(raw, binarize=False, verbose=False)`: obtain the
daily-average series from the external provider, record `nsamples`, then
branch on the basis kind.  The `ssa` and `wavelet` kinds match no branch,
so the method returns silently without touching `beta`.  The `verbose`
flag only prints and is omitted from the state semantics. -/
noncomputable def FLM.fit (P : NumPrims) (s : FLM) (raw : Raw)
    (binarize : Bool) : FLM × Except PyError Unit :=
  let daily := raw.average_daily_activity binarize s.sampling_freq
  let s1 := {s with nsamples := some daily.length}
  match s1.basis with
  | BasisKind.fourier => FLM.fitFourier P s1 daily
  | BasisKind.spline => FLM.fitSpline P s1 daily
  | BasisKind.ssa => (s1, Except.ok ())
  | BasisKind.wavelet => (s1, Except.ok ())

/-- The method `FLM.evaluate(r=10)`: raise the fit-first `ValueError` when
`beta` is `None`; otherwise reconstruct.  The Fourier branch stacks the
cached basis functions and returns `np.dot(X, beta)` — the ratio `r` is
ignored.  The spline branch evaluates the stored spline at
`np.linspace(0, T, r * T, endpoint=False)` with `T = self.nsamples`.  A
basis kind matching neither branch falls through and returns Python
`None`, modelled as `Except.ok none`. -/
noncomputable def FLM.evaluate (P : NumPrims) (s : FLM) (r : ℕ) :
    FLM × Except PyError (Option (List ℝ)) :=
  match s.beta with
  | none => (s, Except.error PyError.valueErrorFitFirst)
  | some b =>
    match s.basis with
    | BasisKind.fourier =>
      match s.basisFunctionsGet with
      | (s2, Except.error e) => (s2, Except.error e)
      | (s2, Except.ok bfs) =>
        match npStackCheck bfs with
        | Except.error e => (s2, Except.error e)
        | Except.ok _ =>
          match b with
          | Beta.fourierParams params =>
            match npDot bfs params with
            | Except.error e => (s2, Except.error e)
            | Except.ok y => (s2, Except.ok (some y))
          | Beta.splineRep _ => (s2, Except.error PyError.typeErrorDotSpline)
    | BasisKind.spline =>
      match b with
      | Beta.splineRep rep =>
        match s.nsamples with
        | none => (s, Except.error PyError.typeErrorNoneArith)
        | some T =>
          (s, Except.ok (some ((linspace0 T (r * T)).map (P.splevAt rep))))
      | Beta.fourierParams _ => (s, Except.error PyError.typeErrorDotSpline)
    | _ => (s, Except.ok none)

/-- The call `self.evaluate(raw, r)` appearing in `FLM.evaluate_reader`.
The method `evaluate(self, r=10)` accepts at most one positional argument
besides `self`, but two are supplied, so Python raises a `TypeError`
before the method body runs. -/
def FLM.evaluateCallTwoArgs (_P : NumPrims) (_s : FLM) (_raw : Raw)
    (_r : ℕ) : Except PyError (List ℝ) :=
  Except.error PyError.typeErrorArity

/-- The `n_jobs == 1` branch of `FLM.evaluate_reader(reader, r=10, ...)`:
build `dict([(raw.display_name, self.evaluate(raw, r)) for raw in
reader.readers])`, evaluating the comprehension left to right with the
first exception propagating.  The `n_jobs > 1` branch performs the same
per-record call through a joblib worker pool and is outside the scope of
this sequential embedding. -/
def FLM.evaluate_reader (P : NumPrims) (s : FLM) (readers : List Raw)
    (r : ℕ) : Except PyError (List (ℕ × List ℝ)) :=
  readers.mapM fun raw =>
    (FLM.evaluateCallTwoArgs P s raw r).map fun y => (raw.display_name, y)

/-- The helper `_scotts_factor(n, d) = np.power(n, -1. / (d + 4))`. -/
noncomputable def scotts_factor (n d : ℕ) : ℝ :=
  (n : ℝ) ^ (-(1 : ℝ) / ((d : ℝ) + 4))

/-- The helper `_silverman_factor(n, d) =
np.power(n * (d + 2.0) / 4.0, -1. / (d + 4))`. -/
noncomputable def silverman_factor (n d : ℕ) : ℝ :=
  ((n : ℝ) * ((d : ℝ) + 2) / 4) ^ (-(1 : ℝ) / ((d : ℝ) + 4))

/-- The numpy sample standard deviation `values.std(ddof=1)`:
`sqrt(sum((x - mean)^2) / (n - 1))`. -/
noncomputable def sampleStd (xs : List ℝ) : ℝ :=
  let mean := xs.sum / (xs.length : ℝ)
  Real.sqrt ((xs.map fun x => (x - mean) ^ 2).sum / ((xs.length : ℝ) - 1))

/-- The constant `sd2fwhm = np.sqrt(8 * np.log(2))` converting a standard
deviation into a full width at half maximum. -/
noncomputable def sd2fwhm : ℝ := Real.sqrt (8 * Real.log 2)

/-- The dynamic type of the `method` argument of `FLM.smooth`: the strings
recognised by the two equality checks, any other string (carrying an
opaque tag), or a numeric scalar — the only case in which
`np.isscalar(method) and not isinstance(method, str)` holds. -/
inductive SmoothMethod where
  | scotts
  | silverman
  | otherString (tag : ℕ)
  | num (x : ℝ)

/-- The bandwidth selection inside `FLM.smooth`: the chain of branches that
assigns the local variable `fwhm`, returning `none` when no branch
applies (a string other than the two recognised names), in which case
`fwhm` stays unbound. -/
noncomputable def resolveFwhm (daily : List ℝ) (method : SmoothMethod) :
    Option ℝ :=
  match method with
  | SmoothMethod.scotts =>
    some (scotts_factor daily.length 1 * sd2fwhm * sampleStd daily)
  | SmoothMethod.silverman =>
    some (silverman_factor daily.length 1 * sd2fwhm * sampleStd daily)
  | SmoothMethod.num x => some x
  | SmoothMethod.otherString _ => none

/-- The method `FLM.smooth(raw, binarize=False, method='scotts')`: compute
the daily-average series, resolve the kernel bandwidth, and hand both to
the black-box smoother `spm1d.util.smooth(daily_avg, fwhm=fwhm)`.  When no
branch assigned `fwhm`, that call site raises an `UnboundLocalError`. -/
noncomputable def FLM.smooth (P : NumPrims) (s : FLM) (raw : Raw)
    (binarize : Bool) (method : SmoothMethod) : Except PyError (List ℝ) :=
  let daily := raw.average_daily_activity binarize s.sampling_freq
  match resolveFwhm daily method with
  | some fwhm => Except.ok (P.spm1dSmooth daily fwhm)
  | none => Except.error PyError.unboundLocalFwhm

/-- A sequence of `fit` calls applied to a model state in order, returning
the final state together with the list of per-call outcomes. -/
noncomputable def runFits (P : NumPrims) : List (Raw × Bool) → FLM →
    FLM × List (Except PyError Unit)
  | [], s => (s, [])
  | c :: rest, s =>
    let step := FLM.fit P s c.1 c.2
    let tail := runFits P rest step.1
    (tail.1, step.2 :: tail.2)

/-! Concrete instances used by witness and counterexample theorems. -/

/-- A concrete instantiation of the black-box numerical primitives of
`NumPrims`, used by the closed witness and counterexample theorems. -/
def Pc : NumPrims where
  olsParams := fun _ cols => cols.map fun _ => 0
  splrepRep := fun t y k => { knots := t, coefs := y, degree := k }
  splevAt := fun _ _ => 0
  spm1dSmooth := fun daily _ => daily

/-- A concrete record whose daily-average series has two samples. -/
def rawc : Raw where
  display_name := 0
  average_daily_activity := fun _ _ => [0, 1]

/-- A second concrete record with a distinct identity. -/
def rawc2 : Raw where
  display_name := 1
  average_daily_activity := fun _ _ => [2, 3]

/-- A concrete record whose daily-average series has four samples. -/
def raw4 : Raw where
  display_name := 4
  average_daily_activity := fun _ _ => [0, 0, 0, 0]

/-- A concrete record whose daily-average series has six samples. -/
def raw6 : Raw where
  display_name := 6
  average_daily_activity := fun _ _ => [0, 0, 0, 0, 0, 0]

/-! Frame lemmas about the embedded operations. -/

/-- The `basis_functions` getter only ever writes the `basis_functions`
attribute: every other attribute of the returned state is unchanged. -/
theorem FLM.basisFunctionsGet_frame (s : FLM) :
    (s.basisFunctionsGet).1.beta = s.beta
  ∧ (s.basisFunctionsGet).1.basis = s.basis
  ∧ (s.basisFunctionsGet).1.nsamples = s.nsamples
  ∧ (s.basisFunctionsGet).1.max_order = s.max_order
  ∧ (s.basisFunctionsGet).1.sampling_freq = s.sampling_freq := by
  unfold FLM.basisFunctionsGet
  split
  · exact ⟨rfl, rfl, rfl, rfl, rfl⟩
  · split <;> exact ⟨rfl, rfl, rfl, rfl, rfl⟩

/-- When the `basis_functions` getter succeeds, the returned state caches
exactly the returned list. -/
theorem FLM.basisFunctionsGet_ok (s s2 : FLM) (bfs : List (List ℝ))
    (h : s.basisFunctionsGet = (s2, Except.ok bfs)) :
    s2.basis_functions = some bfs := by
  unfold FLM.basisFunctionsGet at h
  split at h
  · rename_i bfs0 hcache
    cases h
    simpa using hcache
  · split at h
    · cases h
      rfl
    · cases h

/-- When the cache is already populated, the getter returns it and leaves
the state unchanged. -/
theorem FLM.basisFunctionsGet_cached (s : FLM) (bfs : List (List ℝ))
    (h : s.basis_functions = some bfs) :
    s.basisFunctionsGet = (s, Except.ok bfs) := by
  unfold FLM.basisFunctionsGet
  rw [h]

/-- The length of a numpy linspace is its requested number of points. -/
theorem linspace0_length (stop num : ℕ) : (linspace0 stop num).length = num := by
  simp only [linspace0, List.length_map, List.length_range]

/-- With a positive number of points equal to the stop value,
`np.linspace(0, T, T, endpoint=False)` is the integer grid `0, ..., T-1`. -/
theorem linspace0_self (T : ℕ) (hT : 0 < T) :
    linspace0 T T = (List.range T).map fun (i : ℕ) => (i : ℝ) := by
  have hT0 : (T : ℝ) ≠ 0 := Nat.cast_ne_zero.mpr hT.ne'
  simp [linspace0, div_self hT0]

/-- The flat map pairing two vectors per index has twice as many elements
as the index list. -/
theorem length_flatMap_pairs {α : Type} (f g : ℕ → List α) (k : ℕ) :
    ((List.range k).flatMap fun m => [f m, g m]).length = 2 * k := by
  induction k with
  | zero => rfl
  | succ n ih =>
    rw [List.range_succ, List.flatMap_append, List.length_append, ih]
    simp only [List.flatMap_cons, List.flatMap_nil, List.append_nil,
      List.length_cons, List.length_nil]
    omega

/-- The Fourier basis list has one DC vector plus a cosine and a sine vector
per harmonic. -/
theorem fourierPhi_length (T k : ℕ) : (fourierPhi T k).length = 2 * k + 1 := by
  simp only [fourierPhi, List.length_cons, length_flatMap_pairs]

/-- Every vector of the Fourier basis is sampled at the `T` grid points. -/
theorem fourierPhi_mem_length (T k : ℕ) : ∀ v ∈ fourierPhi T k, v.length = T := by
  intro v hv
  simp only [fourierPhi, List.mem_cons, List.mem_flatMap, List.mem_range,
    List.mem_singleton] at hv
  rcases hv with rfl | ⟨m, _, hv⟩
  · simp only [List.length_map, linspace0_length]
  · rcases hv with rfl | rfl | h
    · simp only [List.length_map, linspace0_length]
    · simp only [List.length_map, linspace0_length]
    · exact absurd h (List.not_mem_nil _)

/-- Closed form of the Fourier basis on a nonempty grid: the DC vector is
constant one, and harmonic `n = m + 1` contributes the cosine and sine
vectors sampled at `cos(n * (2 pi / T) * i)` and `sin(n * (2 pi / T) * i)`
for `i = 0, ..., T - 1`. -/
theorem fourierPhi_eq (T k : ℕ) (hT : 0 < T) :
    fourierPhi T k
      = List.replicate T (1 : ℝ) ::
        (List.range k).flatMap fun (m : ℕ) =>
          [(List.range T).map fun (i : ℕ) =>
              Real.cos (((m : ℝ) + 1) * (2 * Real.pi / (T : ℝ)) * (i : ℝ)),
           (List.range T).map fun (i : ℕ) =>
              Real.sin (((m : ℝ) + 1) * (2 * Real.pi / (T : ℝ)) * (i : ℝ))] := by
  have hT0 : (T : ℝ) ≠ 0 := Nat.cast_ne_zero.mpr hT.ne'
  simp only [fourierPhi, linspace0_self T hT, List.map_map, Function.comp_def,
    zero_mul, Real.cos_zero]
  congr 1
  · rw [List.map_const', List.length_range]

/-- The Fourier fit branch either leaves `beta` unchanged or succeeds having
stored a value in it. -/
theorem FLM.fitFourier_beta_cases (P : NumPrims) (s : FLM) (daily : List ℝ) :
    ((FLM.fitFourier P s daily).1.beta = s.beta) ∨
    ((FLM.fitFourier P s daily).2 = Except.ok () ∧
      ((FLM.fitFourier P s daily).1.beta).isSome = true) := by
  have hfr := (FLM.basisFunctionsGet_frame s).1
  unfold FLM.fitFourier
  split
  · rename_i s2 e heq
    rw [heq] at hfr
    exact Or.inl hfr
  · rename_i s2 bfs heq
    rw [heq] at hfr
    split
    · exact Or.inl hfr
    · split
      · exact Or.inl hfr
      · exact Or.inr ⟨rfl, rfl⟩

/-- The spline fit branch either leaves `beta` unchanged or succeeds having
stored a value in it. -/
theorem FLM.fitSpline_beta_cases (P : NumPrims) (s : FLM) (daily : List ℝ) :
    ((FLM.fitSpline P s daily).1.beta = s.beta) ∨
    ((FLM.fitSpline P s daily).2 = Except.ok () ∧
      ((FLM.fitSpline P s daily).1.beta).isSome = true) := by
  simp only [FLM.fitSpline]
  cases h : splrepChecked P (linspace0 (s.nsamples.getD 0) (s.nsamples.getD 0))
      daily (s.max_order.getD 3) with
  | error e => exact Or.inl rfl
  | ok rep => exact Or.inr ⟨rfl, rfl⟩

/-- Each `fit` call either leaves `beta` unchanged or returns successfully
having stored a value in it. -/
theorem FLM.fit_beta_cases (P : NumPrims) (s : FLM) (raw : Raw) (bin : Bool) :
    ((FLM.fit P s raw bin).1.beta = s.beta) ∨
    ((FLM.fit P s raw bin).2 = Except.ok () ∧
      ((FLM.fit P s raw bin).1.beta).isSome = true) := by
  obtain ⟨b, sf, ns, mo, bf, be⟩ := s
  cases b
  case fourier =>
    simpa only [FLM.fit] using FLM.fitFourier_beta_cases P
      ⟨BasisKind.fourier, sf, some (raw.average_daily_activity bin sf).length, mo, bf, be⟩
      (raw.average_daily_activity bin sf)
  case spline =>
    simpa only [FLM.fit] using FLM.fitSpline_beta_cases P
      ⟨BasisKind.spline, sf, some (raw.average_daily_activity bin sf).length, mo, bf, be⟩
      (raw.average_daily_activity bin sf)
  case ssa => exact Or.inl rfl
  case wavelet => exact Or.inl rfl

/-- The Fourier fit branch never changes `nsamples`, `basis`, `max_order`
or `sampling_freq`. -/
theorem FLM.fitFourier_frame (P : NumPrims) (s : FLM) (daily : List ℝ) :
    (FLM.fitFourier P s daily).1.nsamples = s.nsamples
  ∧ (FLM.fitFourier P s daily).1.basis = s.basis
  ∧ (FLM.fitFourier P s daily).1.max_order = s.max_order
  ∧ (FLM.fitFourier P s daily).1.sampling_freq = s.sampling_freq := by
  have hfr := FLM.basisFunctionsGet_frame s
  obtain ⟨-, hb, hn, hm, hsf⟩ := hfr
  unfold FLM.fitFourier
  split
  · rename_i s2 e heq
    rw [heq] at hb hn hm hsf
    exact ⟨hn, hb, hm, hsf⟩
  · rename_i s2 bfs heq
    rw [heq] at hb hn hm hsf
    split
    · exact ⟨hn, hb, hm, hsf⟩
    · split
      · exact ⟨hn, hb, hm, hsf⟩
      · exact ⟨hn, hb, hm, hsf⟩

/-- The spline fit branch never changes `nsamples`, `basis`, `max_order` or
`sampling_freq`. -/
theorem FLM.fitSpline_frame (P : NumPrims) (s : FLM) (daily : List ℝ) :
    (FLM.fitSpline P s daily).1.nsamples = s.nsamples
  ∧ (FLM.fitSpline P s daily).1.basis = s.basis
  ∧ (FLM.fitSpline P s daily).1.max_order = s.max_order
  ∧ (FLM.fitSpline P s daily).1.sampling_freq = s.sampling_freq := by
  simp only [FLM.fitSpline]
  split
  · exact ⟨rfl, rfl, rfl, rfl⟩
  · exact ⟨rfl, rfl, rfl, rfl⟩

/-- After any `fit` call, `nsamples` holds the length of the daily-average
series that the call just obtained. -/
theorem FLM.fit_nsamples (P : NumPrims) (s : FLM) (raw : Raw) (bin : Bool) :
    ((FLM.fit P s raw bin).1).nsamples
      = some (raw.average_daily_activity bin s.sampling_freq).length := by
  obtain ⟨b, sf, ns, mo, bf, be⟩ := s
  cases b
  case fourier =>
    simpa only [FLM.fit] using (FLM.fitFourier_frame P
      ⟨BasisKind.fourier, sf, some (raw.average_daily_activity bin sf).length, mo, bf, be⟩
      (raw.average_daily_activity bin sf)).1
  case spline =>
    simpa only [FLM.fit] using (FLM.fitSpline_frame P
      ⟨BasisKind.spline, sf, some (raw.average_daily_activity bin sf).length, mo, bf, be⟩
      (raw.average_daily_activity bin sf)).1
  case ssa => rfl
  case wavelet => rfl

/-- A `fit` call never changes the basis kind. -/
theorem FLM.fit_basis (P : NumPrims) (s : FLM) (raw : Raw) (bin : Bool) :
    (FLM.fit P s raw bin).1.basis = s.basis := by
  obtain ⟨b, sf, ns, mo, bf, be⟩ := s
  cases b
  case fourier =>
    simpa only [FLM.fit] using (FLM.fitFourier_frame P
      ⟨BasisKind.fourier, sf, some (raw.average_daily_activity bin sf).length, mo, bf, be⟩
      (raw.average_daily_activity bin sf)).2.1
  case spline =>
    simpa only [FLM.fit] using (FLM.fitSpline_frame P
      ⟨BasisKind.spline, sf, some (raw.average_daily_activity bin sf).length, mo, bf, be⟩
      (raw.average_daily_activity bin sf)).2.1
  case ssa => rfl
  case wavelet => rfl

/-- The Fourier fit branch either succeeds with a stored `beta`, or fails
with some error leaving `beta` unchanged. -/
theorem FLM.fitFourier_cases (P : NumPrims) (s : FLM) (daily : List ℝ) :
    ((FLM.fitFourier P s daily).2 = Except.ok () ∧
      ((FLM.fitFourier P s daily).1.beta).isSome = true) ∨
    ((∃ e, (FLM.fitFourier P s daily).2 = Except.error e) ∧
      (FLM.fitFourier P s daily).1.beta = s.beta) := by
  have hfr := (FLM.basisFunctionsGet_frame s).1
  unfold FLM.fitFourier
  split
  · rename_i s2 e heq
    rw [heq] at hfr
    exact Or.inr ⟨⟨e, rfl⟩, hfr⟩
  · rename_i s2 bfs heq
    rw [heq] at hfr
    split
    · rename_i e _
      exact Or.inr ⟨⟨e, rfl⟩, hfr⟩
    · split
      · rename_i e _
        exact Or.inr ⟨⟨e, rfl⟩, hfr⟩
      · exact Or.inl ⟨rfl, rfl⟩

/-- The spline fit branch either succeeds with a stored `beta`, or fails
with some error leaving `beta` unchanged. -/
theorem FLM.fitSpline_cases (P : NumPrims) (s : FLM) (daily : List ℝ) :
    ((FLM.fitSpline P s daily).2 = Except.ok () ∧
      ((FLM.fitSpline P s daily).1.beta).isSome = true) ∨
    ((∃ e, (FLM.fitSpline P s daily).2 = Except.error e) ∧
      (FLM.fitSpline P s daily).1.beta = s.beta) := by
  simp only [FLM.fitSpline]
  split
  · rename_i e _
    exact Or.inr ⟨⟨e, rfl⟩, rfl⟩
  · exact Or.inl ⟨rfl, rfl⟩

/-- A successful Fourier fit leaves a stored `beta`. -/
theorem FLM.fitFourier_ok_beta (P : NumPrims) (s : FLM) (daily : List ℝ)
    (hok : (FLM.fitFourier P s daily).2 = Except.ok ()) :
    ((FLM.fitFourier P s daily).1.beta).isSome = true := by
  rcases FLM.fitFourier_cases P s daily with ⟨_, h⟩ | ⟨⟨e, he⟩, _⟩
  · exact h
  · rw [he] at hok
    cases hok

/-- A successful spline fit leaves a stored `beta`. -/
theorem FLM.fitSpline_ok_beta (P : NumPrims) (s : FLM) (daily : List ℝ)
    (hok : (FLM.fitSpline P s daily).2 = Except.ok ()) :
    ((FLM.fitSpline P s daily).1.beta).isSome = true := by
  rcases FLM.fitSpline_cases P s daily with ⟨_, h⟩ | ⟨⟨e, he⟩, _⟩
  · exact h
  · rw [he] at hok
    cases hok

/-- A successful `fit` on a supported basis kind (`fourier` or `spline`)
leaves a stored `beta`. -/
theorem FLM.fit_ok_beta (P : NumPrims) (s : FLM) (raw : Raw) (bin : Bool)
    (hb : s.basis = BasisKind.fourier ∨ s.basis = BasisKind.spline)
    (hok : (FLM.fit P s raw bin).2 = Except.ok ()) :
    ((FLM.fit P s raw bin).1.beta).isSome = true := by
  obtain ⟨b, sf, ns, mo, bf, be⟩ := s
  cases b
  case fourier =>
    simp only [FLM.fit] at hok ⊢
    exact FLM.fitFourier_ok_beta P _ _ hok
  case spline =>
    simp only [FLM.fit] at hok ⊢
    exact FLM.fitSpline_ok_beta P _ _ hok
  case ssa => exact absurd hb (by simp)
  case wavelet => exact absurd hb (by simp)

/-- A sequence of fits never changes the basis kind. -/
theorem runFits_basis (P : NumPrims) (calls : List (Raw × Bool)) (s : FLM) :
    (runFits P calls s).1.basis = s.basis := by
  induction calls generalizing s with
  | nil => rfl
  | cons c rest ih =>
    simp only [runFits]
    rw [ih]
    exact FLM.fit_basis P s c.1 c.2

/-- If `beta` is defined after a sequence of fits, it was already defined
before, or some fit in the sequence succeeded. -/
theorem runFits_beta_source (P : NumPrims) (calls : List (Raw × Bool)) (s : FLM)
    (h : ((runFits P calls s).1.beta).isSome = true) :
    s.beta.isSome = true ∨ Except.ok () ∈ (runFits P calls s).2 := by
  induction calls generalizing s with
  | nil => exact Or.inl h
  | cons c rest ih =>
    simp only [runFits] at h ⊢
    rcases ih (FLM.fit P s c.1 c.2).1 h with hs | hmem
    · rcases FLM.fit_beta_cases P s c.1 c.2 with hcase | ⟨hok, _⟩
      · rw [hcase] at hs
        exact Or.inl hs
      · rw [hok]
        exact Or.inr (List.mem_cons_self _ _)
    · exact Or.inr (List.mem_cons_of_mem _ hmem)

/-- A defined `beta` stays defined across any sequence of fits. -/
theorem runFits_beta_mono (P : NumPrims) (calls : List (Raw × Bool)) (s : FLM)
    (h : s.beta.isSome = true) :
    ((runFits P calls s).1.beta).isSome = true := by
  induction calls generalizing s with
  | nil => exact h
  | cons c rest ih =>
    simp only [runFits]
    refine ih (FLM.fit P s c.1 c.2).1 ?_
    rcases FLM.fit_beta_cases P s c.1 c.2 with hcase | ⟨_, hsome⟩
    · rw [hcase]
      exact h
    · exact hsome

/-- On a supported basis kind, a successful fit anywhere in a sequence
leaves `beta` defined at the end. -/
theorem runFits_ok_beta (P : NumPrims) (calls : List (Raw × Bool)) (s : FLM)
    (hb : s.basis = BasisKind.fourier ∨ s.basis = BasisKind.spline)
    (h : Except.ok () ∈ (runFits P calls s).2) :
    ((runFits P calls s).1.beta).isSome = true := by
  induction calls generalizing s with
  | nil => exact absurd h (List.not_mem_nil _)
  | cons c rest ih =>
    simp only [runFits] at h ⊢
    rcases List.mem_cons.mp h with hhead | htail
    · refine runFits_beta_mono P rest _ ?_
      exact FLM.fit_ok_beta P s c.1 c.2 hb hhead.symm
    · refine ih (FLM.fit P s c.1 c.2).1 ?_ htail
      rw [FLM.fit_basis P s c.1 c.2]
      exact hb

/-- C1: the claim says `evaluate_reader` with `n_jobs = 1` on a fitted model
returns a mapping keyed by record identity with one entry per record.  The
code instead calls `self.evaluate(raw, r)`, passing two positional
arguments to `evaluate(self, r=10)`, so Python raises a `TypeError` on the
first record and no mapping is returned: here, on a successfully fitted
Fourier model and a reader with two records of distinct identities. -/
theorem C1_evaluate_reader_crashes :
    FLM.evaluate_reader Pc
        (FLM.fit Pc (FLM.init BasisKind.fourier 1 (some 1)) rawc false).1
        [rawc, rawc2] 10
      = Except.error PyError.typeErrorArity := rfl

/-- C2: for every model on which `fit` has never completed successfully —
any basis kind, any sequence of fit calls none of which returned
successfully after storing coefficients — `evaluate` with any resample
ratio `r` raises the fit-first StateError (the `ValueError` telling the
caller to run `fit` first) and returns no value. -/
theorem C2_evaluate_before_fit (P : NumPrims) (b : BasisKind) (freq : ℕ)
    (mo : Option ℕ) (calls : List (Raw × Bool)) (r : ℕ)
    (hnever : Except.ok () ∉ (runFits P calls (FLM.init b freq mo)).2) :
    FLM.evaluate P (runFits P calls (FLM.init b freq mo)).1 r
      = ((runFits P calls (FLM.init b freq mo)).1,
          Except.error PyError.valueErrorFitFirst) := by
  have hbeta : (runFits P calls (FLM.init b freq mo)).1.beta = none := by
    rcases h : (runFits P calls (FLM.init b freq mo)).1.beta with _ | v
    · rfl
    · exfalso
      have hsome : ((runFits P calls (FLM.init b freq mo)).1.beta).isSome = true := by
        rw [h]
        rfl
      rcases runFits_beta_source P calls _ hsome with hs | hmem
      · simp [FLM.init] at hs
      · exact hnever hmem
  unfold FLM.evaluate
  rw [hbeta]

/-- Witness for C2 at a concrete freshly constructed model and ratio. -/
theorem C2_witness :
    FLM.evaluate Pc (runFits Pc [] (FLM.init BasisKind.fourier 1 (some 1))).1 10
      = ((runFits Pc [] (FLM.init BasisKind.fourier 1 (some 1))).1,
          Except.error PyError.valueErrorFitFirst) :=
  C2_evaluate_before_fit Pc BasisKind.fourier 1 (some 1) [] 10
    (by simp [runFits])

/-- C5: the claim (and the specification) demand that `fit` on a model
constructed with basis kind `ssa` or `wavelet` raise an
UnsupportedBasisError.  The code accepts both kinds at construction but
`fit` matches neither branch: it completes silently, raising nothing and
storing no coefficients. -/
theorem C5_ssa_wavelet_fit_silent :
    (FLM.fit Pc (FLM.init BasisKind.ssa 1 none) rawc false).2 = Except.ok ()
  ∧ (FLM.fit Pc (FLM.init BasisKind.ssa 1 none) rawc false).1.beta = none
  ∧ (FLM.fit Pc (FLM.init BasisKind.wavelet 1 none) rawc false).2 = Except.ok ()
  ∧ (FLM.fit Pc (FLM.init BasisKind.wavelet 1 none) rawc false).1.beta = none :=
  ⟨rfl, rfl, rfl, rfl⟩

/-- C7: the claim says `smooth` with an unrecognized method (neither
"scotts", nor "silverman", nor a numeric scalar) fails with a
ConfigurationError.  The code has no such raise: no branch assigns the
local variable `fwhm`, so the call to the kernel smoother crashes with an
`UnboundLocalError` instead; no smoothed sequence is returned. -/
theorem C7_smooth_bogus_unbound_local :
    FLM.smooth Pc (FLM.init BasisKind.fourier 1 (some 1)) rawc false
      (SmoothMethod.otherString 0) = Except.error PyError.unboundLocalFwhm := rfl

/-- C8: over the whole lifecycle of a model with a supported basis kind
(`fourier` or `spline`), the coefficients `beta` are defined if and only
if some `fit` call completed successfully; in particular they are
undefined right after construction. -/
theorem C8_beta_iff_fit_success (P : NumPrims) (b : BasisKind) (freq : ℕ)
    (mo : Option ℕ) (calls : List (Raw × Bool))
    (hb : b = BasisKind.fourier ∨ b = BasisKind.spline) :
    (FLM.init b freq mo).beta = none
  ∧ (((runFits P calls (FLM.init b freq mo)).1.beta).isSome = true
      ↔ Except.ok () ∈ (runFits P calls (FLM.init b freq mo)).2) := by
  refine ⟨rfl, ⟨?_, ?_⟩⟩
  · intro h
    rcases runFits_beta_source P calls _ h with hs | hmem
    · simp [FLM.init] at hs
    · exact hmem
  · intro h
    refine runFits_ok_beta P calls _ ?_ h
    simpa [FLM.init] using hb

/-- Witness for C8 on a Fourier model and a one-call fit history. -/
theorem C8_witness :
    (FLM.init BasisKind.fourier 1 (some 1)).beta = none
  ∧ (((runFits Pc [(rawc, false)]
        (FLM.init BasisKind.fourier 1 (some 1))).1.beta).isSome = true
      ↔ Except.ok ()
          ∈ (runFits Pc [(rawc, false)]
              (FLM.init BasisKind.fourier 1 (some 1))).2) :=
  C8_beta_iff_fit_success Pc BasisKind.fourier 1 (some 1) [(rawc, false)]
    (Or.inl rfl)

/-- C9: the claim says refitting a Fourier model against a series of a
different length invalidates and rebuilds `basis_functions` to match the
new length.  The code never invalidates the cache: after a successful fit
at length 4, a second fit at length 6 keeps the stale vectors of length 4
and fails inside the least-squares call with a shape-mismatch
`ValueError`, while `nsamples` has already been overwritten with 6. -/
theorem C9_refit_keeps_stale_basis :
    (FLM.fit Pc (FLM.init BasisKind.fourier 1 (some 1)) raw4 false).2
      = Except.ok ()
  ∧ (FLM.fit Pc (FLM.init BasisKind.fourier 1 (some 1)) raw4 false).1.basis_functions
      = some (fourierPhi 4 1)
  ∧ (FLM.fit Pc
        (FLM.fit Pc (FLM.init BasisKind.fourier 1 (some 1)) raw4 false).1
        raw6 false).2
      = Except.error PyError.valueErrorShapeMismatch
  ∧ (FLM.fit Pc
        (FLM.fit Pc (FLM.init BasisKind.fourier 1 (some 1)) raw4 false).1
        raw6 false).1.basis_functions
      = some (fourierPhi 4 1)
  ∧ (FLM.fit Pc
        (FLM.fit Pc (FLM.init BasisKind.fourier 1 (some 1)) raw4 false).1
        raw6 false).1.nsamples = some 6
  ∧ (∀ v ∈ fourierPhi 4 1, v.length = 4) := by
  refine ⟨?_, ?_, ?_, ?_, ?_, fourierPhi_mem_length 4 1⟩ <;> rfl

/-- C10: every `fit` call, for every basis kind including `ssa` and
`wavelet`, overwrites `nsamples` with the length of the newly obtained
daily-average series; in particular a fit that stores no coefficients
(unimplemented basis) still mutates `nsamples`. -/
theorem C10_fit_overwrites_nsamples (P : NumPrims) (s : FLM) (raw : Raw)
    (bin : Bool) :
    ((FLM.fit P s raw bin).1).nsamples
      = some (raw.average_daily_activity bin s.sampling_freq).length
  ∧ ((s.basis = BasisKind.ssa ∨ s.basis = BasisKind.wavelet) →
      (FLM.fit P s raw bin).1.beta = s.beta
      ∧ (FLM.fit P s raw bin).2 = Except.ok ()) := by
  refine ⟨FLM.fit_nsamples P s raw bin, ?_⟩
  intro hb
  obtain ⟨b, sf, ns, mo, bf, be⟩ := s
  rcases hb with h | h
  · cases h
    exact ⟨rfl, rfl⟩
  · cases h
    exact ⟨rfl, rfl⟩

/-- Witness for C10 on a model of the unimplemented `ssa` basis kind with
a previously recorded `nsamples`. -/
theorem C10_witness :
    ((FLM.fit Pc (FLM.init BasisKind.ssa 1 none) rawc false).1).nsamples = some 2
  ∧ (FLM.fit Pc (FLM.init BasisKind.ssa 1 none) rawc false).1.beta = none
  ∧ (FLM.fit Pc (FLM.init BasisKind.ssa 1 none) rawc false).2 = Except.ok () := by
  have h := C10_fit_overwrites_nsamples Pc (FLM.init BasisKind.ssa 1 none) rawc false
  exact ⟨h.1, (h.2 (Or.inl rfl)).1, (h.2 (Or.inl rfl)).2⟩

/-- C3: for every Fourier-basis model with `max_order = k` and cycle length
`T`, the constructed basis is exactly `2k + 1` vectors each of length `T`,
sampled at `T` equally spaced points over one cycle: first a constant DC
vector, then for each harmonic `n = 1..k` a cosine and a sine vector at
angular frequency `n * 2 * pi / T`; the construction is the deterministic
function `createBasisFunctions` of `(T, k)` alone. -/
theorem C3_fourier_basis_construction (T k : ℕ) (hT : 0 < T) :
    (fourierPhi T k).length = 2 * k + 1
  ∧ (∀ v ∈ fourierPhi T k, v.length = T)
  ∧ fourierPhi T k
      = List.replicate T (1 : ℝ) ::
        (List.range k).flatMap (fun (m : ℕ) =>
          [(List.range T).map fun (i : ℕ) =>
              Real.cos (((m : ℝ) + 1) * (2 * Real.pi / (T : ℝ)) * (i : ℝ)),
           (List.range T).map fun (i : ℕ) =>
              Real.sin (((m : ℝ) + 1) * (2 * Real.pi / (T : ℝ)) * (i : ℝ))])
  ∧ createBasisFunctions BasisKind.fourier (some k) (some T)
      = Except.ok (fourierPhi T k) :=
  ⟨fourierPhi_length T k, fourierPhi_mem_length T k, fourierPhi_eq T k hT, rfl⟩

/-- Witness for C3 at cycle length 1 and one harmonic. -/
theorem C3_witness :
    0 < 1
  ∧ ((fourierPhi 1 1).length = 2 * 1 + 1
     ∧ (∀ v ∈ fourierPhi 1 1, v.length = 1)
     ∧ fourierPhi 1 1
         = List.replicate 1 (1 : ℝ) ::
           (List.range 1).flatMap (fun (m : ℕ) =>
             [(List.range 1).map fun (i : ℕ) =>
                 Real.cos (((m : ℝ) + 1) * (2 * Real.pi / ((1 : ℕ) : ℝ)) * (i : ℝ)),
              (List.range 1).map fun (i : ℕ) =>
                 Real.sin (((m : ℝ) + 1) * (2 * Real.pi / ((1 : ℕ) : ℝ)) * (i : ℝ))])
     ∧ createBasisFunctions BasisKind.fourier (some 1) (some 1)
         = Except.ok (fourierPhi 1 1)) :=
  ⟨by decide, C3_fourier_basis_construction 1 1 (by decide)⟩

/-- C6: `smooth` resolves the kernel bandwidth as FWHM
`n^(-1/5) * sqrt(8 ln 2) * s` for method "scotts", as
`(n * 3/4)^(-1/5) * sqrt(8 ln 2) * s` for method "silverman" — with `n`
the series length and `s` its sample standard deviation (`ddof = 1`) —
and as the given numeric scalar exactly, independent of the series, for a
numeric method value. -/
theorem C6_smooth_bandwidth (P : NumPrims) (s : FLM) (raw : Raw) (bin : Bool) :
    FLM.smooth P s raw bin SmoothMethod.scotts
      = Except.ok (P.spm1dSmooth (raw.average_daily_activity bin s.sampling_freq)
          ((((raw.average_daily_activity bin s.sampling_freq).length : ℝ)
              ^ (-(1 : ℝ) / 5))
            * Real.sqrt (8 * Real.log 2)
            * sampleStd (raw.average_daily_activity bin s.sampling_freq)))
  ∧ FLM.smooth P s raw bin SmoothMethod.silverman
      = Except.ok (P.spm1dSmooth (raw.average_daily_activity bin s.sampling_freq)
          (((((raw.average_daily_activity bin s.sampling_freq).length : ℝ) * 3 / 4)
              ^ (-(1 : ℝ) / 5))
            * Real.sqrt (8 * Real.log 2)
            * sampleStd (raw.average_daily_activity bin s.sampling_freq)))
  ∧ ∀ x : ℝ, FLM.smooth P s raw bin (SmoothMethod.num x)
      = Except.ok (P.spm1dSmooth (raw.average_daily_activity bin s.sampling_freq) x) := by
  refine ⟨?_, ?_, fun x => rfl⟩
  · have h : scotts_factor (raw.average_daily_activity bin s.sampling_freq).length 1
        = (((raw.average_daily_activity bin s.sampling_freq).length : ℝ)
            ^ (-(1 : ℝ) / 5)) := by
      unfold scotts_factor
      norm_num
    simp only [FLM.smooth, resolveFwhm, sd2fwhm, h]
  · have h : silverman_factor (raw.average_daily_activity bin s.sampling_freq).length 1
        = ((((raw.average_daily_activity bin s.sampling_freq).length : ℝ) * 3 / 4)
            ^ (-(1 : ℝ) / 5)) := by
      unfold silverman_factor
      norm_num
    simp only [FLM.smooth, resolveFwhm, sd2fwhm, h]

/-- The matrix-vector product has one entry per row of the stacked
matrix, that is, per entry of the first column. -/
theorem matVec_length (cols : List (List ℝ)) (b : List ℝ) :
    (matVec cols b).length = (cols.head?.getD []).length := by
  simp only [matVec, List.length_map, List.length_range]

/-- What a successful Fourier `fit` establishes: the basis kind, the cached
basis functions, the stored OLS parameters, the passed stack shape check,
the shape agreement between series and basis, and the recorded sample
count. -/
theorem FLM.fit_fourier_ok (P : NumPrims) (s s1 : FLM) (raw : Raw) (bin : Bool)
    (hb : s.basis = BasisKind.fourier)
    (hfit : FLM.fit P s raw bin = (s1, Except.ok ())) :
    ∃ bfs,
      s1.basis = BasisKind.fourier
      ∧ s1.basis_functions = some bfs
      ∧ s1.beta = some (Beta.fourierParams
          (P.olsParams (raw.average_daily_activity bin s.sampling_freq) bfs))
      ∧ npStackCheck bfs = Except.ok ()
      ∧ (raw.average_daily_activity bin s.sampling_freq).length
          = (bfs.head?.getD []).length
      ∧ s1.nsamples
          = some (raw.average_daily_activity bin s.sampling_freq).length := by
  obtain ⟨b, sf, ns, mo, bf, be⟩ := s
  cases hb
  simp only [FLM.fit] at hfit
  unfold FLM.fitFourier at hfit
  split at hfit
  next s2 e heq1 => simp at hfit
  next s2 bfs heq1 =>
    split at hfit
    next e heq2 => simp at hfit
    next u heq2 =>
      split at hfit
      next e heq3 => simp at hfit
      next params heq3 =>
        rw [Prod.mk.injEq] at hfit
        obtain ⟨hs1, -⟩ := hfit
        subst hs1
        have hcache := FLM.basisFunctionsGet_ok _ _ _ heq1
        have hfr := FLM.basisFunctionsGet_frame
          (⟨BasisKind.fourier, sf,
            some (raw.average_daily_activity bin sf).length, mo, bf, be⟩ : FLM)
        rw [heq1] at hfr
        unfold smOLS at heq3
        split at heq3
        next hlen =>
          injection heq3 with h3
          subst h3
          cases u
          exact ⟨bfs, hfr.2.1, hcache, rfl, heq2, hlen, hfr.2.2.1⟩
        next => cases heq3

/-- What a successful spline `fit` establishes: the basis kind, the stored
spline representation, and the recorded sample count. -/
theorem FLM.fit_spline_ok (P : NumPrims) (s s1 : FLM) (raw : Raw) (bin : Bool)
    (hb : s.basis = BasisKind.spline)
    (hfit : FLM.fit P s raw bin = (s1, Except.ok ())) :
    ∃ rep,
      s1.basis = BasisKind.spline
      ∧ s1.beta = some (Beta.splineRep rep)
      ∧ s1.nsamples
          = some (raw.average_daily_activity bin s.sampling_freq).length := by
  obtain ⟨b, sf, ns, mo, bf, be⟩ := s
  cases hb
  simp only [FLM.fit, FLM.fitSpline] at hfit
  split at hfit
  next e heq => simp at hfit
  next rep heq =>
    rw [Prod.mk.injEq] at hfit
    obtain ⟨hs1, -⟩ := hfit
    subst hs1
    exact ⟨rep, rfl, rfl, rfl⟩

/-- Concrete form of `evaluate` on a Fourier state with populated cache and
parameters: the ratio argument is ignored and the result is the
matrix-vector product of the cached basis with the stored parameters. -/
theorem FLM.evaluate_fourier_form (P : NumPrims) (s : FLM)
    (bfs : List (List ℝ)) (params : List ℝ)
    (hb : s.basis = BasisKind.fourier)
    (hbf : s.basis_functions = some bfs)
    (hbeta : s.beta = some (Beta.fourierParams params))
    (hstack : npStackCheck bfs = Except.ok ())
    (hlen : bfs.length = params.length) (r : ℕ) :
    FLM.evaluate P s r = (s, Except.ok (some (matVec bfs params))) := by
  unfold FLM.evaluate
  simp only [hbeta, hb, FLM.basisFunctionsGet_cached s bfs hbf, hstack, npDot,
    if_pos hlen]

/-- Concrete form of `evaluate` on a spline state: the stored spline is
evaluated at `r * T` equally spaced points. -/
theorem FLM.evaluate_spline_form (P : NumPrims) (s : FLM) (rep : SplineRep)
    (T r : ℕ)
    (hb : s.basis = BasisKind.spline)
    (hbeta : s.beta = some (Beta.splineRep rep))
    (hns : s.nsamples = some T) :
    FLM.evaluate P s r
      = (s, Except.ok (some ((linspace0 T (r * T)).map (P.splevAt rep)))) := by
  unfold FLM.evaluate
  simp only [hbeta, hb, hns]

/-- C4: after a successful `fit` on a series of length `n_samples`,
`evaluate` with ratio `r` returns, for a Fourier-basis model, the product
of the cached basis matrix and the coefficient vector — a sequence of
length `n_samples`, with `r` accepted but ignored — and, for a
spline-basis model, the stored spline evaluated at `r * n_samples` equally
spaced points over the cycle — a sequence of length `r * n_samples`.  The
hypothesis on `olsParams` records the black-box OLS contract that the
fitted parameter vector has one entry per design-matrix column. -/
theorem C4_evaluate_after_fit (P : NumPrims)
    (hOls : ∀ y cols, (P.olsParams y cols).length = cols.length)
    (s s1 : FLM) (raw : Raw) (bin : Bool)
    (hfit : FLM.fit P s raw bin = (s1, Except.ok ())) :
    (s.basis = BasisKind.fourier →
      ∃ bfs params,
        s1.basis_functions = some bfs
        ∧ s1.beta = some (Beta.fourierParams params)
        ∧ (∀ r, FLM.evaluate P s1 r = (s1, Except.ok (some (matVec bfs params))))
        ∧ (matVec bfs params).length
            = (raw.average_daily_activity bin s.sampling_freq).length)
  ∧ (s.basis = BasisKind.spline →
      ∃ rep,
        s1.beta = some (Beta.splineRep rep)
        ∧ ∀ r, FLM.evaluate P s1 r
              = (s1, Except.ok (some ((linspace0
                  (raw.average_daily_activity bin s.sampling_freq).length
                  (r * (raw.average_daily_activity bin s.sampling_freq).length)).map
                  (P.splevAt rep))))
            ∧ ((linspace0 (raw.average_daily_activity bin s.sampling_freq).length
                  (r * (raw.average_daily_activity bin s.sampling_freq).length)).map
                  (P.splevAt rep)).length
              = r * (raw.average_daily_activity bin s.sampling_freq).length) := by
  constructor
  · intro hb
    obtain ⟨bfs, hb1, hbf, hbeta, hstack, hlen, hns⟩ :=
      FLM.fit_fourier_ok P s s1 raw bin hb hfit
    refine ⟨bfs, P.olsParams (raw.average_daily_activity bin s.sampling_freq) bfs,
      hbf, hbeta, ?_, ?_⟩
    · intro r
      exact FLM.evaluate_fourier_form P s1 bfs _ hb1 hbf hbeta hstack
        (hOls _ _).symm r
    · rw [matVec_length]
      exact hlen.symm
  · intro hb
    obtain ⟨rep, hb1, hbeta, hns⟩ := FLM.fit_spline_ok P s s1 raw bin hb hfit
    refine ⟨rep, hbeta, fun r => ⟨?_, ?_⟩⟩
    · exact FLM.evaluate_spline_form P s1 rep _ r hb1 hbeta hns
    · rw [List.length_map, linspace0_length]

/-- The state of a concrete Fourier model after one successful fit. -/
noncomputable def sFitted : FLM :=
  (FLM.fit Pc (FLM.init BasisKind.fourier 1 (some 1)) rawc false).1

/-- The state of a concrete spline model after one successful fit. -/
noncomputable def sFittedSpline : FLM :=
  (FLM.fit Pc (FLM.init BasisKind.spline 1 (some 3)) raw4 false).1

/-- Witness for C4: one successful Fourier fit (series length 2) and one
successful spline fit (series length 4, degree 3), each followed by the
corresponding evaluation guarantees. -/
theorem C4_witness :
    (FLM.fit Pc (FLM.init BasisKind.fourier 1 (some 1)) rawc false
        = (sFitted, Except.ok ())
      ∧ ((FLM.init BasisKind.fourier 1 (some 1)).basis = BasisKind.fourier →
          ∃ bfs params,
            sFitted.basis_functions = some bfs
            ∧ sFitted.beta = some (Beta.fourierParams params)
            ∧ (∀ r, FLM.evaluate Pc sFitted r
                  = (sFitted, Except.ok (some (matVec bfs params))))
            ∧ (matVec bfs params).length = 2))
  ∧ (FLM.fit Pc (FLM.init BasisKind.spline 1 (some 3)) raw4 false
        = (sFittedSpline, Except.ok ())
      ∧ ((FLM.init BasisKind.spline 1 (some 3)).basis = BasisKind.spline →
          ∃ rep,
            sFittedSpline.beta = some (Beta.splineRep rep)
            ∧ ∀ r, FLM.evaluate Pc sFittedSpline r
                  = (sFittedSpline,
                      Except.ok (some ((linspace0 4 (r * 4)).map (Pc.splevAt rep))))
              ∧ ((linspace0 4 (r * 4)).map (Pc.splevAt rep)).length = r * 4)) := by
  have hOls : ∀ (y : List ℝ) (cols : List (List ℝ)),
      (Pc.olsParams y cols).length = cols.length := by
    intro y cols
    simp [Pc]
  have hfitF : FLM.fit Pc (FLM.init BasisKind.fourier 1 (some 1)) rawc false
      = (sFitted, Except.ok ()) := by
    have h2 : (FLM.fit Pc (FLM.init BasisKind.fourier 1 (some 1)) rawc false).2
        = Except.ok () := rfl
    rw [← h2]
    rfl
  have hfitS : FLM.fit Pc (FLM.init BasisKind.spline 1 (some 3)) raw4 false
      = (sFittedSpline, Except.ok ()) := by
    have h2 : (FLM.fit Pc (FLM.init BasisKind.spline 1 (some 3)) raw4 false).2
        = Except.ok () := rfl
    rw [← h2]
    rfl
  exact ⟨⟨hfitF, (C4_evaluate_after_fit Pc hOls _ sFitted rawc false hfitF).1⟩,
    ⟨hfitS, (C4_evaluate_after_fit Pc hOls _ sFittedSpline raw4 false hfitS).2⟩⟩
